import Mathlib

/-!
# Islandora book reader: page side and spread resolution

A shallow embedding of the page-layout methods of
`src/js/islandora_book_reader.js` (`getPage`, `getPID`, `getPageSide`,
`getSpreadIndices`), of its page-number, dimension and URI methods
(`getPageNum`, `getPageName`, `getPageDimensions`, `getPageWidth`,
`getPageHeight`, `getDimensionsUri`, `getTextURI`, `getDjatokaUri`) and of the
reader object they run on.

Modelling conventions.

* A method of the reader is a function from the reader (`this`) and its
  arguments to `Except JSError (result × reader)`: the value returned and the
  reader after the call, or the exception thrown.
* JavaScript `undefined` and `null` are `none`.
* Page indices are integers (`Int`); they are assumed to be in the range in
  which JavaScript number arithmetic on integers is exact.
* A page's `width` and `height` fields are represented by the number that
  `parseInt` reads from them (see `JSNum`).
* The methods that look dimensions up also return the list of events of the
  call (see `Event`): every entry into `getPageDimensions` and every request
  sent to the dimensions callback.
* The server behind `jQuery.ajax` and the serialiser `jQuery.param` are
  parameters of the methods that use them.
-/

namespace Islandora

/-- The exceptions the modelled methods can throw. -/
inductive JSError where
  /-- A property was read from `undefined`. -/
  | typeError
  deriving DecidableEq, Repr

/-- The numbers `parseInt` can produce: `NaN`, or an integer with a sign
(`num true 0` is `-0`). An infinite result, which needs an input of more than
three hundred digits, is not represented. -/
inductive JSNum where
  | nan
  | num (neg : Bool) (mag : Nat)
  deriving DecidableEq, Repr

/-- The number `+0`. -/
def JSNum.zero : JSNum := .num false 0

/-- A positive or zero integer as a JavaScript number. -/
def JSNum.ofNat (n : Nat) : JSNum := .num false n

/-- The test `h / w > 2.5` on JavaScript numbers. `NaN` compares false with
everything; `±0 / w` is `±0` or `NaN`; a non-zero `h` over `±0` is an infinity
whose sign is the product of the signs; otherwise the quotient of two non-zero
integers exceeds `2.5` exactly when it is positive and `2 * |h| > 5 * |w|`
(the rounding of the division cannot move a quotient across `2.5` for
`|w| ≤ 2 ^ 51`). -/
def ratioExceeds (h w : JSNum) : Bool :=
  match h, w with
  | .nan, _ => false
  | _, .nan => false
  | .num hneg hmag, .num wneg wmag =>
    if hmag = 0 then false
    else if hneg != wneg then false
    else if wmag = 0 then true
    else decide (5 * wmag < 2 * hmag)

/-- The width and height record kept in the dimension cache. -/
structure Dimensions where
  width : JSNum
  height : JSNum
  deriving DecidableEq, Repr

/-- One entry of `settings.pages`. A field that is absent is `none`; `width`
and `height`, when present, hold the number `parseInt` reads from them. -/
structure Page where
  pid : Option String
  uri : Option String
  width : Option JSNum
  height : Option JSNum
  deriving DecidableEq, Repr

/-- The builtin `parseInt` applied to a `width` or `height` field:
`parseInt(undefined)` is `NaN`. -/
def parseInt (field : Option JSNum) : JSNum :=
  match field with
  | none => .nan
  | some v => v

/-- The values an entry of `settings.pageNumbers` can hold: a string or an
integer number. -/
inductive JSValue where
  | str (s : String)
  | num (n : Int)
  deriving DecidableEq, Repr

/-- The truth value of a condition `if (value)`: the empty string and the
number zero are false, every other string or integer is true. -/
def JSValue.truthy : JSValue → Bool
  | .str s => decide (s ≠ "")
  | .num n => decide (n ≠ 0)

/-- The settings object the reader is constructed from. `pages` and
`pageNumbers` are indexed by page index; an index without an entry gives
`undefined`. -/
structure Settings where
  pageCount : Int
  pages : Int → Option Page
  pageNumbers : Int → Option JSValue
  pageProgression : Option String
  dimensionsUri : String
  textUri : String
  djatokaUri : String
  compression : String

/-- The fields of an `IslandoraBookReader` object that the modelled methods
read or write. -/
structure IslandoraBookReader where
  settings : Settings
  dimensions : Int → Option Dimensions
  numLeafs : Int
  pageNums : Int → Option JSValue
  pageProgression : Option String

namespace IslandoraBookReader

/-- The constructor `function IslandoraBookReader(settings)`. -/
def construct (settings : Settings) : IslandoraBookReader where
  settings := settings
  dimensions := fun _ => none
  numLeafs := settings.pageCount
  pageNums := settings.pageNumbers
  pageProgression := settings.pageProgression

/-- The conversion `ToInt32` that a bitwise operator applies to an integer
operand. -/
def toInt32 (n : Int) : Int :=
  (n + 2147483648) % 4294967296 - 2147483648

/-- The expression `index & 0x1`: the lowest bit of `ToInt32(index)`. -/
def andOne (index : Int) : Int :=
  toInt32 index % 2

/-- The builtin `toUpperCase`, on the characters `a` to `z`; other characters
are kept. -/
def toUpperCase (s : String) : List Char :=
  s.data.map Char.toUpper

/-- Indexing a string: `s[i]` is the one-character string at position `i`, or
`undefined` when there is none. -/
def charAt (s : List Char) (i : Int) : Option String :=
  if i < 0 then none else (s.get? i.toNat).map String.singleton

/-- The method `getPage`. -/
def getPage (this : IslandoraBookReader) (index : Int) :
    Except JSError (Option Page × IslandoraBookReader) :=
  match this.settings.pages index with
  | some page => .ok (some page, this)
  | none => .ok (none, this)

/-- The method `getPID`. -/
def getPID (this : IslandoraBookReader) (index : Int) :
    Except JSError (Option String × IslandoraBookReader) :=
  match getPage this index with
  | .error e => .error e
  | .ok (page, this1) =>
    match page with
    | some p => .ok (p.pid, this1)
    | none => .ok (none, this1)

/-- The method `getPageSide`. Reading `pages[0].height` when `pages[0]` is
`undefined`, or calling `toUpperCase` on an `undefined` page progression,
throws. -/
def getPageSide (this : IslandoraBookReader) (index : Int) :
    Except JSError (Option String × IslandoraBookReader) :=
  match this.settings.pages 0 with
  | none => .error .typeError
  | some first =>
    if ratioExceeds (parseInt first.height) (parseInt first.width) then
      -- first page is narrow, probably spine
      match this.settings.pageProgression with
      | none => .error .typeError
      | some progression => .ok (charAt (toUpperCase progression) (andOne index), this)
    else if some "rl" ≠ this.pageProgression then
      if 0 = andOne index then .ok (some "R", this) else .ok (some "L", this)
    else
      if 0 = andOne index then .ok (some "L", this) else .ok (some "R", this)

/-- The method `getSpreadIndices`; the result is the pair
`(spreadIndices[0], spreadIndices[1])`, the left and the right slot. -/
def getSpreadIndices (this : IslandoraBookReader) (pindex : Int) :
    Except JSError ((Option Int × Option Int) × IslandoraBookReader) :=
  let spreadIndices : Option Int × Option Int := (none, none)
  if some "rl" = this.pageProgression then
    match getPageSide this pindex with
    | .error e => .error e
    | .ok (side, this1) =>
      if side = some "R" then
        let spreadIndices := (spreadIndices.1, some pindex)
        let spreadIndices := (some (pindex + 1), spreadIndices.2)
        .ok (spreadIndices, this1)
      else
        let spreadIndices := (some pindex, spreadIndices.2)
        let spreadIndices := (spreadIndices.1, some (pindex - 1))
        .ok (spreadIndices, this1)
  else
    match getPageSide this pindex with
    | .error e => .error e
    | .ok (side, this1) =>
      if side = some "L" then
        let spreadIndices := (some pindex, spreadIndices.2)
        let spreadIndices := (spreadIndices.1, some (pindex + 1))
        .ok (spreadIndices, this1)
      else
        let spreadIndices := (spreadIndices.1, some pindex)
        let spreadIndices := (some (pindex - 1), spreadIndices.2)
        .ok (spreadIndices, this1)

/-! ### Page numbers -/

/-- The method `getPageNum`. An index without an entry in `pageNums` gives
`undefined`, which is false in the test `if (pageNum)`. -/
def getPageNum (this : IslandoraBookReader) (index : Int) :
    Except JSError (JSValue × IslandoraBookReader) :=
  let pageNum := this.pageNums index
  match pageNum with
  | some value =>
    if value.truthy then .ok (value, this)
    else .ok (.str ("n" ++ toString index), this)
  | none => .ok (.str ("n" ++ toString index), this)

/-- The method `getPageName`. -/
def getPageName (this : IslandoraBookReader) (index : Int) :
    Except JSError (JSValue × IslandoraBookReader) :=
  getPageNum this index

/-! ### String builtins used by the URI methods -/

/-- Whether the text starts with the pattern. -/
def startsWith : List Char → List Char → Bool
  | [], _ => true
  | _ :: _, [] => false
  | p :: pattern, c :: text => decide (p = c) && startsWith pattern text

/-- The position of the first occurrence of the pattern in the text, as the
builtin `indexOf` finds it. -/
def indexOf (pattern : List Char) : List Char → Option Nat
  | [] => if startsWith pattern [] then some 0 else none
  | c :: text =>
    if startsWith pattern (c :: text) then some 0
    else (indexOf pattern text).map (· + 1)

/-- The number of positions of the text at which the pattern occurs. -/
def countOccurrences (pattern : List Char) : List Char → Nat
  | [] => if startsWith pattern [] then 1 else 0
  | c :: text =>
    (if startsWith pattern (c :: text) then 1 else 0) + countOccurrences pattern text

/-- The expansion of a replacement string by `String.prototype.replace` for a
string pattern: `$$` is a dollar sign, `$&` the matched text, a dollar sign
followed by a grave accent the text before the match, a dollar sign followed
by an apostrophe the text after the match; with no capture groups every other
character, a dollar sign included, stands for itself. -/
def getSubstitution (matched before after : List Char) : List Char → List Char
  | [] => []
  | c :: rest =>
    if c = '$' then
      match rest with
      | [] => [c]
      | d :: rest2 =>
        if d = '$' then '$' :: getSubstitution matched before after rest2
        else if d = '&' then matched ++ getSubstitution matched before after rest2
        else if d = Char.ofNat 96 then before ++ getSubstitution matched before after rest2
        else if d = Char.ofNat 39 then after ++ getSubstitution matched before after rest2
        else c :: d :: getSubstitution matched before after rest2
    else c :: getSubstitution matched before after rest

/-- The builtin `String.prototype.replace` with a string pattern: the first
occurrence of the pattern is replaced by the expanded replacement; a text
without the pattern is returned as it is. -/
def stringReplace (text pattern replacement : String) : String :=
  match indexOf pattern.data text.data with
  | none => text
  | some position =>
    let before := text.data.take position
    let after := text.data.drop (position + pattern.data.length)
    String.mk (before ++ getSubstitution pattern.data before after replacement.data ++ after)

/-- The builtin `String.prototype.charAt`: the one-character string at the
position, or the empty string when the position is outside the string. -/
def charAtPosition (s : String) (position : Nat) : String :=
  match s.data.get? position with
  | some c => String.singleton c
  | none => ""

/-! ### URIs -/

/-- The method `getDjatokaUri`; `param` is `jQuery.param`, applied to the list
of the keys and values of the object literal. -/
def getDjatokaUri (param : List (String × String) → String)
    (this : IslandoraBookReader) (resource_uri : String) :
    Except JSError (String × IslandoraBookReader) :=
  let base_uri := this.settings.djatokaUri
  let base_uri :=
    if charAtPosition base_uri base_uri.data.length ≠ "/" then base_uri ++ "/" else base_uri
  let params := param
    [("rft_id", resource_uri),
     ("url_ver", "Z39.88-2004"),
     ("svc_id", "info:lanl-repo/svc/getRegion"),
     ("svc_val_fmt", "info:ofi/fmt:kev:mtx:jpeg2000"),
     ("svc.format", "image/jpg"),
     ("svc.level", this.settings.compression),
     ("svc.rotate", "0")]
  .ok (base_uri ++ "resolver?" ++ params, this)

/-- The method `getDimensionsUri`. -/
def getDimensionsUri (this : IslandoraBookReader) (pid : String) :
    Except JSError (String × IslandoraBookReader) :=
  let uri := this.settings.dimensionsUri
  let uri := stringReplace uri "PID" pid
  .ok (uri, this)

/-- The method `getTextURI`. -/
def getTextURI (this : IslandoraBookReader) (pid : String) :
    Except JSError (String × IslandoraBookReader) :=
  .ok (stringReplace this.settings.textUri "PID" pid, this)

/-! ### Page dimensions and their cache -/

/-- What a call does besides returning: `lookup i` records an entry into
`getPageDimensions(i)`, `request url` a request sent by `jQuery.ajax`. -/
inductive Event where
  | lookup (index : Int)
  | request (url : String)
  deriving DecidableEq, Repr

/-- The JSON object a successful dimensions request delivers; the fields are
represented as those of a page. -/
structure DimensionsData where
  width : Option JSNum
  height : Option JSNum
  deriving DecidableEq, Repr

/-- The method `getPageDimensions`; `ajax url` is the data of the response
when the synchronous request succeeds and `none` when it does not (the
`success` callback is then not run). -/
def getPageDimensions (ajax : String → Option DimensionsData)
    (this : IslandoraBookReader) (index : Int) :
    Except JSError (Dimensions × IslandoraBookReader × List Event) :=
  let dimensions : Dimensions := { width := JSNum.zero, height := JSNum.zero }
  match getPage this index with
  | .error e => .error e
  | .ok (page, this1) =>
    match page with
    | some page =>
      -- If we don't have one or the other, make a query out to Djatoka.
      if page.width = none ∨ page.height = none then
        match page.pid with
        | none => .ok (dimensions, this1, [Event.lookup index])
        | some pid =>
          match getDimensionsUri this1 pid with
          | .error e => .error e
          | .ok (url, this2) =>
            match ajax url with
            | some data =>
              let dimensions := { dimensions with width := parseInt data.width }
              let dimensions := { dimensions with height := parseInt data.height }
              .ok (dimensions, this2, [Event.lookup index, Event.request url])
            | none => .ok (dimensions, this2, [Event.lookup index, Event.request url])
      else
        let dimensions := { dimensions with width := parseInt page.width }
        let dimensions := { dimensions with height := parseInt page.height }
        .ok (dimensions, this1, [Event.lookup index])
    | none => .ok (dimensions, this1, [Event.lookup index])

/-- The assignment `this.dimensions[index] = value`. -/
def setDimensions (this : IslandoraBookReader) (index : Int) (value : Dimensions) :
    IslandoraBookReader :=
  { this with dimensions := fun k => if k = index then some value else this.dimensions k }

/-- The method `getPageWidth`. -/
def getPageWidth (ajax : String → Option DimensionsData)
    (this : IslandoraBookReader) (index : Int) :
    Except JSError (JSNum × IslandoraBookReader × List Event) :=
  match this.dimensions index with
  | none =>
    match getPageDimensions ajax this index with
    | .error e => .error e
    | .ok (value, this1, events) =>
      let this2 := setDimensions this1 index value
      match this2.dimensions index with
      | some cached => .ok (cached.width, this2, events)
      | none => .error .typeError
  | some cached => .ok (cached.width, this, [])

/-- The method `getPageHeight`. -/
def getPageHeight (ajax : String → Option DimensionsData)
    (this : IslandoraBookReader) (index : Int) :
    Except JSError (JSNum × IslandoraBookReader × List Event) :=
  match this.dimensions index with
  | none =>
    match getPageDimensions ajax this index with
    | .error e => .error e
    | .ok (value, this1, events) =>
      let this2 := setDimensions this1 index value
      match this2.dimensions index with
      | some cached => .ok (cached.height, this2, events)
      | none => .error .typeError
  | some cached => .ok (cached.height, this, [])

/-- A call of one of the two cached accessors. -/
inductive Call where
  | width (index : Int)
  | height (index : Int)
  deriving DecidableEq, Repr

/-- The index a call is about. -/
def Call.index : Call → Int
  | .width index => index
  | .height index => index

/-- One call of `getPageWidth` or `getPageHeight`. -/
def runCall (ajax : String → Option DimensionsData) (this : IslandoraBookReader) :
    Call → Except JSError (JSNum × IslandoraBookReader × List Event)
  | .width index => getPageWidth ajax this index
  | .height index => getPageHeight ajax this index

/-- A sequence of calls of `getPageWidth` and `getPageHeight`, one after the
other on the same reader: the values returned, the reader at the end and the
events of all the calls in order. -/
def runCalls (ajax : String → Option DimensionsData) :
    IslandoraBookReader → List Call →
      Except JSError (List JSNum × IslandoraBookReader × List Event)
  | this, [] => .ok ([], this, [])
  | this, call :: calls =>
    match runCall ajax this call with
    | .error e => .error e
    | .ok (value, this1, events) =>
      match runCalls ajax this1 calls with
      | .error e => .error e
      | .ok (values, this2, events2) => .ok (value :: values, this2, events ++ events2)

/-- The indices of the `lookup` events of a list of events, in order. -/
def lookups : List Event → List Int
  | [] => []
  | .lookup index :: events => index :: lookups events
  | .request _ :: events => lookups events

/-- The urls of the `request` events of a list of events, in order. -/
def requests : List Event → List String
  | [] => []
  | .lookup _ :: events => requests events
  | .request url :: events => url :: requests events

/-- The reader with another page progression, in the settings and in the
field the constructor copies it to. -/
def withProgression (this : IslandoraBookReader) (progression : Option String) :
    IslandoraBookReader :=
  { this with
    settings := { this.settings with pageProgression := progression }
    pageProgression := progression }

/-- The value a call returned, without the reader. -/
def returned {α : Type} (result : Except JSError (α × IslandoraBookReader)) :
    Except JSError α :=
  match result with
  | .error e => .error e
  | .ok (value, _) => .ok value

end IslandoraBookReader

/-! ## Example configurations -/

/-- A page with a pid and the given height and width. -/
def examplePage (pid : String) (height width : Nat) : Page where
  pid := some pid
  uri := some pid
  width := some (JSNum.ofNat width)
  height := some (JSNum.ofNat height)

/-- Settings of a three-page book whose first page has the given height and
width. -/
def exampleSettings (progression : Option String) (height width : Nat) : Settings where
  pageCount := 3
  pages := fun i =>
    if i = 0 then some (examplePage "book:0" height width)
    else if i = 1 then some (examplePage "book:1" 1500 1000)
    else if i = 2 then some (examplePage "book:2" 1500 1000)
    else none
  pageNumbers := fun _ => none
  pageProgression := progression
  dimensionsUri := "dimensions/PID"
  textUri := "text/PID"
  djatokaUri := "http://localhost/adore-djatoka"
  compression := "4"

/-- A left-to-right book with a normal cover (1500 by 1000). -/
def ltrBook : IslandoraBookReader :=
  IslandoraBookReader.construct (exampleSettings (some "lr") 1500 1000)

/-- A right-to-left book with a normal cover (1500 by 1000). -/
def rtlBook : IslandoraBookReader :=
  IslandoraBookReader.construct (exampleSettings (some "rl") 1500 1000)

/-- A left-to-right book whose first page is a spine (3000 by 1000). -/
def ltrSpineBook : IslandoraBookReader :=
  IslandoraBookReader.construct (exampleSettings (some "lr") 3000 1000)

/-- A right-to-left book whose first page is a spine (3000 by 1000). -/
def rtlSpineBook : IslandoraBookReader :=
  IslandoraBookReader.construct (exampleSettings (some "rl") 3000 1000)

/-- A left-to-right book whose first page has width zero (1500 by 0). -/
def zeroWidthBook : IslandoraBookReader :=
  IslandoraBookReader.construct (exampleSettings (some "lr") 1500 0)

/-- A left-to-right spine book whose page progression is mistyped as
`'ltr'`. -/
def mistypedSpineBook : IslandoraBookReader :=
  IslandoraBookReader.construct (exampleSettings (some "ltr") 3000 1000)

/-- A spine book whose page progression is not set. -/
def unsetSpineBook : IslandoraBookReader :=
  IslandoraBookReader.construct (exampleSettings none 3000 1000)

/-- A book with the page numbers `'i'` at index 0, the empty string at index 1
and the number 0 at index 2. -/
def numberedBook : IslandoraBookReader :=
  IslandoraBookReader.construct
    { exampleSettings (some "lr") 1500 1000 with
      pageNumbers := fun i =>
        if i = 0 then some (.str "i")
        else if i = 1 then some (.str "")
        else if i = 2 then some (.num 0)
        else none }

/-- A book whose Djatoka base URI already ends in a slash. -/
def slashBook : IslandoraBookReader :=
  IslandoraBookReader.construct
    { exampleSettings (some "lr") 1500 1000 with
      djatokaUri := "http://localhost/adore-djatoka/" }

/-- A book whose page 1 has no width and no height, and whose page 2 has
neither dimensions nor a pid. -/
def lazyBook : IslandoraBookReader :=
  IslandoraBookReader.construct
    { exampleSettings (some "lr") 1500 1000 with
      pages := fun i =>
        if i = 0 then some (examplePage "book:0" 1500 1000)
        else if i = 1 then some { pid := some "book:1", uri := none, width := none, height := none }
        else if i = 2 then some { pid := none, uri := none, width := none, height := none }
        else none }

/-- A book whose text URI template holds the placeholder twice and whose
dimensions URI template does not hold it. -/
def doubleTemplateBook : IslandoraBookReader :=
  IslandoraBookReader.construct
    { exampleSettings (some "lr") 1500 1000 with
      dimensionsUri := "dimensions"
      textUri := "text/PID/PID" }

/-- A server that answers the dimensions request of `book:1` with 800 by 1200
and no other request. -/
def exampleAjax (url : String) : Option IslandoraBookReader.DimensionsData :=
  if url = "dimensions/book:1" then
    some { width := some (JSNum.ofNat 800), height := some (JSNum.ofNat 1200) }
  else none

/-- A server that answers no request. -/
def failingAjax (_url : String) : Option IslandoraBookReader.DimensionsData :=
  none

open IslandoraBookReader

/-! ## Auxiliary facts -/

theorem andOne_eq_emod (index : Int) : andOne index = index % 2 := by
  unfold andOne toInt32
  omega

theorem charAt_upper_lr_zero : charAt (toUpperCase "lr") 0 = some "L" := by rfl

theorem charAt_upper_lr_one : charAt (toUpperCase "lr") 1 = some "R" := by rfl

theorem charAt_upper_rl_zero : charAt (toUpperCase "rl") 0 = some "R" := by rfl

theorem charAt_upper_rl_one : charAt (toUpperCase "rl") 1 = some "L" := by rfl

/-- On a normal cover and a page progression other than `'rl'`, the side is
`'R'` on an even index and `'L'` on an odd one. -/
theorem getPageSide_normal_ltr (this : IslandoraBookReader) (first : Page) (index : Int)
    (hfirst : this.settings.pages 0 = some first)
    (hnormal : ratioExceeds (parseInt first.height) (parseInt first.width) = false)
    (hdir : this.pageProgression ≠ some "rl") :
    getPageSide this index
      = .ok (if index % 2 = 0 then some "R" else some "L", this) := by
  have hdir2 : some "rl" ≠ this.pageProgression := fun h => hdir h.symm
  unfold getPageSide
  rw [hfirst]
  simp only [hnormal, Bool.false_eq_true, if_false, hdir2, ne_eq, not_false_eq_true, if_true,
    andOne_eq_emod]
  by_cases h : index % 2 = 0
  · simp [h]
  · have h2 : ¬ (0 = index % 2) := fun e => h e.symm
    simp [h, h2]

/-- On a normal cover and the page progression `'rl'`, the side is `'L'` on an
even index and `'R'` on an odd one. -/
theorem getPageSide_normal_rtl (this : IslandoraBookReader) (first : Page) (index : Int)
    (hfirst : this.settings.pages 0 = some first)
    (hnormal : ratioExceeds (parseInt first.height) (parseInt first.width) = false)
    (hdir : this.pageProgression = some "rl") :
    getPageSide this index
      = .ok (if index % 2 = 0 then some "L" else some "R", this) := by
  unfold getPageSide
  rw [hfirst]
  simp only [hnormal, Bool.false_eq_true, if_false, hdir, ne_eq, not_true_eq_false,
    andOne_eq_emod]
  by_cases h : index % 2 = 0
  · simp [h]
  · have h2 : ¬ (0 = index % 2) := fun e => h e.symm
    simp [h, h2]

/-- On a narrow first page the side is the character of the upper-cased
`settings.pageProgression` at position `index & 1`. -/
theorem narrow_branch_value (this : IslandoraBookReader) (first : Page) (index : Int)
    (progression : String)
    (hfirst : this.settings.pages 0 = some first)
    (hnarrow : ratioExceeds (parseInt first.height) (parseInt first.width) = true)
    (hprog : this.settings.pageProgression = some progression) :
    getPageSide this index
      = .ok (charAt (toUpperCase progression) (index % 2), this) := by
  unfold getPageSide
  rw [hfirst]
  simp only [hnarrow, if_true, hprog, andOne_eq_emod]

/-! ## The reference definition of the spread, after the specification -/

/-- The sides of the specification. -/
inductive Side where
  | LEFT
  | RIGHT
  deriving DecidableEq, Repr

/-- The reading directions of the specification. -/
inductive ReadingDirection where
  | LTR
  | RTL
  deriving DecidableEq, Repr

/-- The reading direction of a reader: `RTL` when `this.pageProgression` is
`'rl'`, `LTR` for every other value. -/
def readingDirection (this : IslandoraBookReader) : ReadingDirection :=
  if this.pageProgression = some "rl" then .RTL else .LTR

/-- The side a value returned by `getPageSide` stands for, if any. -/
def sideOfValue (value : Option String) : Option Side :=
  if value = some "L" then some .LEFT
  else if value = some "R" then some .RIGHT
  else none

/-- The spread of the specification, as the pair (left, right): in a
right-to-left book, a page on the RIGHT gives (index + 1, index) and any other
gives (index, index - 1); in a left-to-right book, a page on the LEFT gives
(index, index + 1) and any other gives (index - 1, index). -/
def specSpreadIndices (direction : ReadingDirection) (side : Option Side) (index : Int) :
    Option Int × Option Int :=
  match direction with
  | .RTL =>
    match side with
    | some .RIGHT => (some (index + 1), some index)
    | _ => (some index, some (index - 1))
  | .LTR =>
    match side with
    | some .LEFT => (some index, some (index + 1))
    | _ => (some (index - 1), some index)

/-- A call of `getPageSide` that returns leaves the reader as it was. -/
theorem getPageSide_reader (this this1 : IslandoraBookReader) (index : Int)
    (value : Option String) (h : getPageSide this index = .ok (value, this1)) :
    this1 = this := by
  unfold getPageSide at h
  split at h
  · cases h
  · split at h
    · split at h
      · cases h
      · cases h; rfl
    · split at h
      · split at h <;> cases h <;> rfl
      · split at h <;> cases h <;> rfl

/-- With a first page and a page progression in the settings, `getPageSide`
returns. -/
theorem getPageSide_returns (this : IslandoraBookReader) (first : Page) (index : Int)
    (progression : String)
    (hfirst : this.settings.pages 0 = some first)
    (hprog : this.settings.pageProgression = some progression) :
    ∃ value, getPageSide this index = .ok (value, this) := by
  unfold getPageSide
  rw [hfirst]
  simp only [hprog]
  split
  · exact ⟨_, rfl⟩
  · split
    · split <;> exact ⟨_, rfl⟩
    · split <;> exact ⟨_, rfl⟩

/-- The result of `getSpreadIndices` in terms of the side `getPageSide`
returned. -/
theorem getSpreadIndices_of_side (this this1 : IslandoraBookReader) (index : Int)
    (side : Option String) (h : getPageSide this index = .ok (side, this1)) :
    getSpreadIndices this index
      = .ok (if this.pageProgression = some "rl" then
               (if side = some "R" then (some (index + 1), some index)
                else (some index, some (index - 1)))
             else
               (if side = some "L" then (some index, some (index + 1))
                else (some (index - 1), some index)), this1) := by
  unfold getSpreadIndices
  rw [h]
  by_cases hdir : this.pageProgression = some "rl"
  · have hdir2 : some "rl" = this.pageProgression := hdir.symm
    simp only [hdir2, if_true]
    by_cases hside : side = some "R" <;> simp [hside]
  · have hdir2 : ¬ (some "rl" = this.pageProgression) := fun e => hdir e.symm
    simp only [hdir2, hdir, if_false]
    by_cases hside : side = some "L" <;> simp [hside]

/-- A call of `getSpreadIndices` that returns leaves the reader as it was. -/
theorem getSpreadIndices_reader (this this1 : IslandoraBookReader) (index : Int)
    (spread : Option Int × Option Int)
    (h : getSpreadIndices this index = .ok (spread, this1)) :
    this1 = this := by
  cases hside : getPageSide this index with
  | error e =>
    unfold getSpreadIndices at h
    rw [hside] at h
    split at h <;> cases h
  | ok res =>
    obtain ⟨side, this2⟩ := res
    rw [getSpreadIndices_of_side this this2 index side hside] at h
    simp only [Except.ok.injEq, Prod.mk.injEq] at h
    rw [← h.2]
    exact getPageSide_reader this this2 index side hside

/-- The example settings have a page exactly at the indices 0, 1 and 2. -/
theorem exampleSettings_pages (progression : Option String) (height width : Nat) (k : Int) :
    ((exampleSettings progression height width).pages k).isSome
      ↔ (0 ≤ k ∧ k < (exampleSettings progression height width).pageCount) := by
  simp only [exampleSettings]
  by_cases h0 : k = 0
  · subst h0; simp
  · by_cases h1 : k = 1
    · subst h1; simp
    · by_cases h2 : k = 2
      · subst h2; simp
      · simp only [h0, h1, h2, if_false, Option.isSome_none, Bool.false_eq_true, false_iff]
        omega

/-- The out-of-range position `length` holds no character. -/
theorem charAtPosition_length (s : String) : charAtPosition s s.data.length = "" := by
  unfold charAtPosition
  rw [List.get?_eq_none.2 (Nat.le_refl _)]

/-- The method `getDjatokaUri` puts a slash after every base URI. -/
theorem getDjatokaUri_value (param : List (String × String) → String)
    (this : IslandoraBookReader) (resource_uri : String) :
    getDjatokaUri param this resource_uri
      = .ok (this.settings.djatokaUri ++ "/" ++ "resolver?" ++ param
          [("rft_id", resource_uri), ("url_ver", "Z39.88-2004"),
           ("svc_id", "info:lanl-repo/svc/getRegion"),
           ("svc_val_fmt", "info:ofi/fmt:kev:mtx:jpeg2000"),
           ("svc.format", "image/jpg"), ("svc.level", this.settings.compression),
           ("svc.rotate", "0")], this) := by
  unfold getDjatokaUri
  simp only [charAtPosition_length]
  have h : ("" : String) ≠ "/" := by decide
  simp only [h, ne_eq, not_false_eq_true, if_true]

/-- A replacement string without a dollar sign is inserted as it is. -/
theorem getSubstitution_plain (matched before after replacement : List Char)
    (hplain : '$' ∉ replacement) :
    getSubstitution matched before after replacement = replacement := by
  induction replacement with
  | nil => rfl
  | cons c rest ih =>
    have hc : c ≠ '$' := fun h => hplain (by rw [h]; exact List.mem_cons_self _ _)
    have hrest : '$' ∉ rest := fun h => hplain (List.mem_cons_of_mem _ h)
    unfold getSubstitution
    simp only [hc, if_false, ih hrest]

/-- A text that begins with the pattern starts with it. -/
theorem startsWith_append (pattern text : List Char) :
    startsWith pattern (pattern ++ text) = true := by
  induction pattern with
  | nil => rfl
  | cons p pattern ih => simp [startsWith, ih]

/-- The first occurrence is at position 0 when the text starts with the
pattern. -/
theorem indexOf_of_startsWith (pattern text : List Char)
    (hstarts : startsWith pattern text = true) : indexOf pattern text = some 0 := by
  cases text with
  | nil => simp only [indexOf, hstarts, if_true]
  | cons c text => simp only [indexOf, hstarts, if_true]

/-- A text that starts with the pattern contains it at least once. -/
theorem countOccurrences_of_startsWith (pattern text : List Char)
    (hstarts : startsWith pattern text = true) : 1 ≤ countOccurrences pattern text := by
  cases text with
  | nil => simp only [countOccurrences, hstarts, if_true, Nat.le_refl]
  | cons c text =>
    simp only [countOccurrences, hstarts, if_true]
    omega

/-- A text built around the pattern contains it at least once. -/
theorem countOccurrences_pos (pattern before after : List Char) :
    1 ≤ countOccurrences pattern (before ++ (pattern ++ after)) := by
  induction before with
  | nil => exact countOccurrences_of_startsWith pattern _ (startsWith_append pattern after)
  | cons c before ih =>
    have happ : (c :: before) ++ (pattern ++ after) = c :: (before ++ (pattern ++ after)) := rfl
    rw [happ, countOccurrences]
    omega

/-- When no occurrence of the pattern starts inside `before`, the first
occurrence in `before ++ pattern ++ after` is at the end of `before`. -/
theorem indexOf_of_first (pattern before after : List Char)
    (hfirst : ∀ k, k < before.length →
      startsWith pattern ((before ++ (pattern ++ after)).drop k) = false) :
    indexOf pattern (before ++ (pattern ++ after)) = some before.length := by
  induction before with
  | nil => exact indexOf_of_startsWith pattern _ (startsWith_append pattern after)
  | cons c before ih =>
    have happ : (c :: before) ++ (pattern ++ after) = c :: (before ++ (pattern ++ after)) := rfl
    have hhead : startsWith pattern (c :: (before ++ (pattern ++ after))) = false :=
      hfirst 0 (Nat.succ_pos _)
    have hrest : ∀ k, k < before.length →
        startsWith pattern ((before ++ (pattern ++ after)).drop k) = false := by
      intro k hk
      exact hfirst (k + 1) (Nat.succ_lt_succ hk)
    rw [happ, indexOf]
    simp only [hhead, Bool.false_eq_true, if_false, ih hrest, Option.map_some',
      List.length_cons]

/-- When the pattern occurs exactly once in `before ++ pattern ++ after`, no
occurrence starts inside `before`. -/
theorem first_of_single (pattern before after : List Char)
    (hone : countOccurrences pattern (before ++ (pattern ++ after)) = 1) :
    ∀ k, k < before.length →
      startsWith pattern ((before ++ (pattern ++ after)).drop k) = false := by
  induction before with
  | nil => intro k hk; exact absurd hk (Nat.not_lt_zero k)
  | cons c before ih =>
    have happ : (c :: before) ++ (pattern ++ after) = c :: (before ++ (pattern ++ after)) := rfl
    rw [happ] at hone ⊢
    rw [countOccurrences] at hone
    have hpos := countOccurrences_pos pattern before after
    have hhead : startsWith pattern (c :: (before ++ (pattern ++ after))) = false := by
      cases hsw : startsWith pattern (c :: (before ++ (pattern ++ after))) with
      | false => rfl
      | true =>
        simp only [hsw, if_true] at hone
        omega
    simp only [hhead, Bool.false_eq_true, if_false, Nat.zero_add] at hone
    intro k hk
    cases k with
    | zero => exact hhead
    | succ k => exact ih hone k (Nat.lt_of_succ_lt_succ hk)

/-- A text in which the pattern does not occur has no first occurrence. -/
theorem indexOf_of_absent (pattern text : List Char)
    (hnone : countOccurrences pattern text = 0) :
    indexOf pattern text = none := by
  induction text with
  | nil =>
    rw [countOccurrences] at hnone
    rw [indexOf]
    cases hsw : startsWith pattern [] with
    | false => simp only [Bool.false_eq_true, if_false]
    | true => simp only [hsw, if_true] at hnone; omega
  | cons c text ih =>
    rw [countOccurrences] at hnone
    cases hsw : startsWith pattern (c :: text) with
    | false =>
      simp only [hsw, Bool.false_eq_true, if_false, Nat.zero_add] at hnone
      rw [indexOf]
      simp only [hsw, Bool.false_eq_true, if_false, ih hnone, Option.map_none']
    | true => simp only [hsw, if_true] at hnone; omega

/-- The builtin `replace` on a text in which the pattern does not occur. -/
theorem stringReplace_absent (text pattern replacement : String)
    (hnone : countOccurrences pattern.data text.data = 0) :
    stringReplace text pattern replacement = text := by
  unfold stringReplace
  rw [indexOf_of_absent pattern.data text.data hnone]

/-- The builtin `replace` on a text whose first occurrence of the pattern is
after `before`, with a replacement that has no dollar sign. -/
theorem stringReplace_first (before after pattern replacement : String)
    (hplain : '$' ∉ replacement.data)
    (hfirst : ∀ k, k < before.data.length →
      startsWith pattern.data ((before ++ pattern ++ after).data.drop k) = false) :
    stringReplace (before ++ pattern ++ after) pattern replacement
      = before ++ replacement ++ after := by
  have hdata : (before ++ pattern ++ after).data
      = before.data ++ (pattern.data ++ after.data) := by
    simp only [String.data_append, List.append_assoc]
  rw [hdata] at hfirst
  unfold stringReplace
  rw [hdata, indexOf_of_first pattern.data before.data after.data hfirst]
  simp only [List.take_left', List.drop_append, List.drop_left',
    getSubstitution_plain _ _ _ _ hplain]
  apply String.ext
  simp only [String.data_append, List.append_assoc]

/-- A call of `getPageDimensions` returns, leaves the reader as it was and is
recorded as one lookup. -/
theorem getPageDimensions_returns (ajax : String → Option DimensionsData)
    (this : IslandoraBookReader) (index : Int) :
    ∃ value events, getPageDimensions ajax this index = .ok (value, this, events) ∧
      lookups events = [index] := by
  unfold getPageDimensions getPage
  cases hpage : this.settings.pages index with
  | none => exact ⟨_, _, rfl, rfl⟩
  | some page =>
    simp only
    by_cases hdims : page.width = none ∨ page.height = none
    · simp only [hdims, if_true]
      cases hpid : page.pid with
      | none => exact ⟨_, _, rfl, rfl⟩
      | some pid =>
        simp only [getDimensionsUri]
        cases hajax : ajax (stringReplace this.settings.dimensionsUri "PID" pid) with
        | none => exact ⟨_, _, rfl, rfl⟩
        | some data => exact ⟨_, _, rfl, rfl⟩
    · simp only [hdims, if_false]
      exact ⟨_, _, rfl, rfl⟩

/-- On a cache miss `getPageWidth` stores the looked-up record and returns its
width. -/
theorem getPageWidth_miss (ajax : String → Option DimensionsData)
    (this : IslandoraBookReader) (index : Int) (value : Dimensions) (events : List Event)
    (hmiss : this.dimensions index = none)
    (hvalue : getPageDimensions ajax this index = .ok (value, this, events)) :
    getPageWidth ajax this index
      = .ok (value.width, setDimensions this index value, events) := by
  unfold getPageWidth
  simp only [hmiss, hvalue, setDimensions, if_true]

/-- On a cache miss `getPageHeight` stores the looked-up record and returns
its height. -/
theorem getPageHeight_miss (ajax : String → Option DimensionsData)
    (this : IslandoraBookReader) (index : Int) (value : Dimensions) (events : List Event)
    (hmiss : this.dimensions index = none)
    (hvalue : getPageDimensions ajax this index = .ok (value, this, events)) :
    getPageHeight ajax this index
      = .ok (value.height, setDimensions this index value, events) := by
  unfold getPageHeight
  simp only [hmiss, hvalue, setDimensions, if_true]

/-- On a cache hit `getPageWidth` returns the cached width and does nothing
else. -/
theorem getPageWidth_hit (ajax : String → Option DimensionsData)
    (this : IslandoraBookReader) (index : Int) (cached : Dimensions)
    (hhit : this.dimensions index = some cached) :
    getPageWidth ajax this index = .ok (cached.width, this, []) := by
  unfold getPageWidth
  simp only [hhit]

/-- On a cache hit `getPageHeight` returns the cached height and does nothing
else. -/
theorem getPageHeight_hit (ajax : String → Option DimensionsData)
    (this : IslandoraBookReader) (index : Int) (cached : Dimensions)
    (hhit : this.dimensions index = some cached) :
    getPageHeight ajax this index = .ok (cached.height, this, []) := by
  unfold getPageHeight
  simp only [hhit]

/-- One call of a cached accessor: it returns; it looks up at most its own
index, and only when the cache has no entry for it; afterwards the cache has
an entry for the index and every entry that was there is unchanged. -/
theorem runCall_step (ajax : String → Option DimensionsData)
    (this : IslandoraBookReader) (call : Call) :
    ∃ value this1 events, runCall ajax this call = .ok (value, this1, events) ∧
      (∀ k record, this.dimensions k = some record → this1.dimensions k = some record) ∧
      (∀ k, k ≠ call.index → this1.dimensions k = this.dimensions k) ∧
      this1.dimensions call.index ≠ none ∧
      (lookups events = [] ∨ (lookups events = [call.index] ∧
        this.dimensions call.index = none)) := by
  cases hcache : this.dimensions call.index with
  | some cached =>
    have hrun : ∃ result, runCall ajax this call = .ok (result, this, []) := by
      cases call with
      | width index => exact ⟨_, getPageWidth_hit ajax this index cached hcache⟩
      | height index => exact ⟨_, getPageHeight_hit ajax this index cached hcache⟩
    obtain ⟨result, hresult⟩ := hrun
    refine ⟨result, this, [], hresult, fun k record h => h, fun k _ => rfl, ?_, Or.inl rfl⟩
    rw [hcache]
    exact Option.some_ne_none _
  | none =>
    obtain ⟨value, events, hvalue, hlook⟩ := getPageDimensions_returns ajax this call.index
    have hrun : ∃ result, runCall ajax this call
        = .ok (result, setDimensions this call.index value, events) := by
      cases call with
      | width index =>
        exact ⟨_, getPageWidth_miss ajax this index value events hcache hvalue⟩
      | height index =>
        exact ⟨_, getPageHeight_miss ajax this index value events hcache hvalue⟩
    obtain ⟨result, hresult⟩ := hrun
    refine ⟨result, setDimensions this call.index value, events, hresult, ?_, ?_, ?_,
      Or.inr ⟨hlook, rfl⟩⟩
    · intro k record hk
      by_cases hki : k = call.index
      · rw [hki, hcache] at hk; cases hk
      · simp only [setDimensions, hki, if_false, hk]
    · intro k hki
      simp only [setDimensions, hki, if_false]
    · simp only [setDimensions, if_true]
      exact Option.some_ne_none _

/-- The lookups of two lists of events, one after the other. -/
theorem lookups_append (events events2 : List Event) :
    lookups (events ++ events2) = lookups events ++ lookups events2 := by
  induction events with
  | nil => rfl
  | cons event events ih =>
    cases event with
    | lookup index =>
      show index :: lookups (events ++ events2) = index :: lookups events ++ lookups events2
      rw [ih, List.cons_append]
    | request url =>
      show lookups (events ++ events2) = lookups events ++ lookups events2
      exact ih

/-- A sequence of calls of the cached accessors: it returns; no index is
looked up twice; every index looked up had no cache entry at the start; every
entry that was in the cache at the start is unchanged at the end. -/
theorem runCalls_lookups (ajax : String → Option DimensionsData) (calls : List Call) :
    ∀ this : IslandoraBookReader, ∃ values this1 events,
      runCalls ajax this calls = .ok (values, this1, events) ∧
      (lookups events).Nodup ∧
      (∀ i, i ∈ lookups events → this.dimensions i = none) ∧
      (∀ k record, this.dimensions k = some record → this1.dimensions k = some record) := by
  induction calls with
  | nil =>
    intro this
    refine ⟨[], this, [], rfl, List.nodup_nil, ?_, fun k record h => h⟩
    intro i hi
    exact absurd hi (List.not_mem_nil i)
  | cons call calls ih =>
    intro this
    obtain ⟨value, this1, events, hcall, hkeep, -, hnow, hlook⟩ := runCall_step ajax this call
    obtain ⟨values, this2, events2, hrest, hnodup, hfresh, hkeep2⟩ := ih this1
    refine ⟨value :: values, this2, events ++ events2, ?_, ?_, ?_, ?_⟩
    · rw [runCalls]
      simp only [hcall, hrest]
    · rw [lookups_append]
      rcases hlook with hnil | ⟨hone, -⟩
      · rw [hnil]; exact hnodup
      · rw [hone]
        refine List.nodup_cons.2 ⟨fun hmem => ?_, hnodup⟩
        exact hnow (hfresh _ hmem)
    · intro i hi
      rw [lookups_append] at hi
      rcases List.mem_append.1 hi with h1 | h2
      · rcases hlook with hnil | ⟨hone, hmiss⟩
        · rw [hnil] at h1; cases h1
        · rw [hone] at h1
          rw [List.mem_singleton.1 h1]
          exact hmiss
      · have hnone := hfresh i h2
        cases hthis : this.dimensions i with
        | none => rfl
        | some record => rw [hkeep i record hthis] at hnone; cases hnone
    · intro k record hk
      exact hkeep2 k record (hkeep k record hk)

/-! ## Claims -/

/-- C1: when the first page is a normal cover (the test `height / width > 2.5`
is false), `getPageSide` is decided by parity and reading direction for every
integer index: with a page progression other than `'rl'` (left to right) it
returns `'R'` on every even index and `'L'` on every odd index; with `'rl'` it
returns `'L'` on every even index and `'R'` on every odd index. -/
theorem getPageSide_normal_cover (this : IslandoraBookReader) (first : Page) (index : Int)
    (hfirst : this.settings.pages 0 = some first)
    (hnormal : ratioExceeds (parseInt first.height) (parseInt first.width) = false) :
    (this.pageProgression ≠ some "rl" →
      (index % 2 = 0 → getPageSide this index = .ok (some "R", this)) ∧
      (index % 2 = 1 → getPageSide this index = .ok (some "L", this))) ∧
    (this.pageProgression = some "rl" →
      (index % 2 = 0 → getPageSide this index = .ok (some "L", this)) ∧
      (index % 2 = 1 → getPageSide this index = .ok (some "R", this))) := by
  refine ⟨fun hdir => ⟨fun h => ?_, fun h => ?_⟩, fun hdir => ⟨fun h => ?_, fun h => ?_⟩⟩
  · rw [getPageSide_normal_ltr this first index hfirst hnormal hdir]; simp [h]
  · rw [getPageSide_normal_ltr this first index hfirst hnormal hdir]; simp [h]
  · rw [getPageSide_normal_rtl this first index hfirst hnormal hdir]; simp [h]
  · rw [getPageSide_normal_rtl this first index hfirst hnormal hdir]; simp [h]

/-- Witness of C1: a 1500 by 1000 cover, index 4 in a left-to-right book and
index -3 in a right-to-left book. -/
theorem getPageSide_normal_cover_witness :
    getPageSide ltrBook 4 = .ok (some "R", ltrBook) ∧
    getPageSide rtlBook (-3) = .ok (some "R", rtlBook) :=
  ⟨((getPageSide_normal_cover ltrBook (examplePage "book:0" 1500 1000) 4 rfl rfl).1
      (by decide)).1 (by decide),
   ((getPageSide_normal_cover rtlBook (examplePage "book:0" 1500 1000) (-3) rfl rfl).2
      rfl).2 (by decide)⟩

/-- C2, counterexample: with a first page of 3000 by 1000 (ratio 3.0) and the
progression `'lr'`, index 0 is on the LEFT, whereas with a normal cover it is
on the RIGHT: the narrow-spine result differs from the normal-cover result. -/
theorem narrow_side_differs_from_normal :
    ratioExceeds (JSNum.ofNat 3000) (JSNum.ofNat 1000) = true ∧
    ratioExceeds (JSNum.ofNat 1500) (JSNum.ofNat 1000) = false ∧
    getPageSide ltrSpineBook 0 = .ok (some "L", ltrSpineBook) ∧
    getPageSide ltrBook 0 = .ok (some "R", ltrBook) :=
  ⟨rfl, rfl, rfl, rfl⟩

/-- C2, amended: when the first page is a narrow spine (the test
`height / width > 2.5` is true), `getPageSide` returns the character of the
upper-cased page progression at position `index & 1`, which is the opposite
of the normal-cover side: with `'lr'` every even index is on the LEFT and
every odd index on the RIGHT, and with `'rl'` every even index is on the RIGHT
and every odd index on the LEFT. -/
theorem getPageSide_narrow_spine (this : IslandoraBookReader) (first : Page) (index : Int)
    (hfirst : this.settings.pages 0 = some first)
    (hnarrow : ratioExceeds (parseInt first.height) (parseInt first.width) = true) :
    (this.settings.pageProgression = some "lr" →
      (index % 2 = 0 → getPageSide this index = .ok (some "L", this)) ∧
      (index % 2 = 1 → getPageSide this index = .ok (some "R", this))) ∧
    (this.settings.pageProgression = some "rl" →
      (index % 2 = 0 → getPageSide this index = .ok (some "R", this)) ∧
      (index % 2 = 1 → getPageSide this index = .ok (some "L", this))) := by
  refine ⟨fun hdir => ⟨fun h => ?_, fun h => ?_⟩, fun hdir => ⟨fun h => ?_, fun h => ?_⟩⟩
  · rw [narrow_branch_value this first index "lr" hfirst hnarrow hdir, h, charAt_upper_lr_zero]
  · rw [narrow_branch_value this first index "lr" hfirst hnarrow hdir, h, charAt_upper_lr_one]
  · rw [narrow_branch_value this first index "rl" hfirst hnarrow hdir, h, charAt_upper_rl_zero]
  · rw [narrow_branch_value this first index "rl" hfirst hnarrow hdir, h, charAt_upper_rl_one]

/-- Witness of the amended C2: a 3000 by 1000 first page, index 6 in a
left-to-right book and index 5 in a right-to-left book. -/
theorem getPageSide_narrow_spine_witness :
    getPageSide ltrSpineBook 6 = .ok (some "L", ltrSpineBook) ∧
    getPageSide rtlSpineBook 5 = .ok (some "L", rtlSpineBook) :=
  ⟨((getPageSide_narrow_spine ltrSpineBook (examplePage "book:0" 3000 1000) 6 rfl rfl).1
      rfl).1 (by decide),
   ((getPageSide_narrow_spine rtlSpineBook (examplePage "book:0" 3000 1000) 5 rfl rfl).2
      rfl).2 (by decide)⟩

/-- C3, counterexample: the first page of `zeroWidthBook` has width zero
(height 1500), and `getPageSide` returns a side at index 0 and at index 1
instead of failing. -/
theorem zero_width_side_returned :
    (zeroWidthBook.settings.pages 0).map Page.width = some (some JSNum.zero) ∧
    getPageSide zeroWidthBook 0 = .ok (some "L", zeroWidthBook) ∧
    getPageSide zeroWidthBook 1 = .ok (some "R", zeroWidthBook) :=
  ⟨rfl, rfl, rfl⟩

/-- C3, amended: for a configuration whose first page has width zero and whose
page progression is `'lr'` or `'rl'`, `getPageSide` does not fail: it returns
`'L'` or `'R'` for every index. The division gives an infinity or `NaN`
instead of raising: when the height is non-zero and has the sign of the zero
width, the ratio is `+Infinity` and the narrow-spine branch is taken. -/
theorem getPageSide_zero_width (this : IslandoraBookReader) (first : Page) (index : Int)
    (wneg : Bool) (progression : String)
    (hfirst : this.settings.pages 0 = some first)
    (hwidth : parseInt first.width = .num wneg 0)
    (hsettings : this.settings.pageProgression = some progression)
    (hthis : this.pageProgression = some progression)
    (hprog : progression = "lr" ∨ progression = "rl") :
    (∃ side, (side = "L" ∨ side = "R") ∧ getPageSide this index = .ok (some side, this)) ∧
    (∀ hmag, 0 < hmag → parseInt first.height = .num wneg hmag →
      getPageSide this index = .ok (charAt (toUpperCase progression) (index % 2), this)) := by
  have hparity : index % 2 = 0 ∨ index % 2 = 1 := by omega
  constructor
  · cases hratio : ratioExceeds (parseInt first.height) (parseInt first.width) with
    | false =>
      rcases hprog with hp | hp
      · have hdir : this.pageProgression ≠ some "rl" := by rw [hthis, hp]; decide
        rw [getPageSide_normal_ltr this first index hfirst hratio hdir]
        rcases hparity with h | h
        · exact ⟨"R", Or.inr rfl, by simp [h]⟩
        · exact ⟨"L", Or.inl rfl, by simp [h]⟩
      · have hdir : this.pageProgression = some "rl" := by rw [hthis, hp]
        rw [getPageSide_normal_rtl this first index hfirst hratio hdir]
        rcases hparity with h | h
        · exact ⟨"L", Or.inl rfl, by simp [h]⟩
        · exact ⟨"R", Or.inr rfl, by simp [h]⟩
    | true =>
      rw [narrow_branch_value this first index progression hfirst hratio hsettings]
      rcases hprog with hp | hp <;> rcases hparity with h | h <;> subst hp <;> rw [h]
      · exact ⟨"L", Or.inl rfl, by rw [charAt_upper_lr_zero]⟩
      · exact ⟨"R", Or.inr rfl, by rw [charAt_upper_lr_one]⟩
      · exact ⟨"R", Or.inr rfl, by rw [charAt_upper_rl_zero]⟩
      · exact ⟨"L", Or.inl rfl, by rw [charAt_upper_rl_one]⟩
  · intro hmag hpos hheight
    have hratio : ratioExceeds (parseInt first.height) (parseInt first.width) = true := by
      rw [hheight, hwidth]
      have hne : hmag ≠ 0 := by omega
      simp [ratioExceeds, hne]
    exact narrow_branch_value this first index progression hfirst hratio hsettings

/-- Witness of the amended C3: the zero-width book (height 1500) at index 1. -/
theorem getPageSide_zero_width_witness :
    (∃ side, (side = "L" ∨ side = "R") ∧
      getPageSide zeroWidthBook 1 = .ok (some side, zeroWidthBook)) ∧
    getPageSide zeroWidthBook 1 = .ok (some "R", zeroWidthBook) :=
  ⟨(getPageSide_zero_width zeroWidthBook (examplePage "book:0" 1500 0) 1 false "lr"
      rfl rfl rfl rfl (Or.inl rfl)).1,
   (getPageSide_zero_width zeroWidthBook (examplePage "book:0" 1500 0) 1 false "lr"
      rfl rfl rfl rfl (Or.inl rfl)).2 1500 (by decide) rfl⟩

/-- C4: `getSpreadIndices` equals the reference definition for every integer
index: it fails exactly when `getPageSide` fails, and otherwise returns the
spread of the specification for the reader's direction and the side that
`getPageSide` returned. -/
theorem getSpreadIndices_eq_spec (this : IslandoraBookReader) (index : Int) :
    getSpreadIndices this index
      = match getPageSide this index with
        | .error e => .error e
        | .ok (side, this1) =>
          .ok (specSpreadIndices (readingDirection this) (sideOfValue side) index, this1) := by
  unfold getSpreadIndices readingDirection
  by_cases hdir : this.pageProgression = some "rl"
  · have hdir2 : some "rl" = this.pageProgression := hdir.symm
    simp only [hdir2, if_true]
    cases getPageSide this index with
    | error e => rfl
    | ok res =>
      obtain ⟨side, this1⟩ := res
      by_cases hside : side = some "R"
      · subst hside
        simp [specSpreadIndices, sideOfValue]
      · by_cases hleft : side = some "L"
        · subst hleft
          simp [specSpreadIndices, sideOfValue]
        · simp [specSpreadIndices, sideOfValue, hside, hleft]
  · have hdir2 : ¬ (some "rl" = this.pageProgression) := fun h => hdir h.symm
    simp only [hdir2, hdir, if_false]
    cases getPageSide this index with
    | error e => rfl
    | ok res =>
      obtain ⟨side, this1⟩ := res
      by_cases hleft : side = some "L"
      · subst hleft
        simp [specSpreadIndices, sideOfValue]
      · by_cases hside : side = some "R"
        · subst hside
          simp [specSpreadIndices, sideOfValue]
        · simp [specSpreadIndices, sideOfValue, hside, hleft]

/-- C5: for every integer index and every configuration (a first page and a
page progression are present; `pageCount` is arbitrary), `getSpreadIndices`
returns two integers, never `null`: exactly one slot equals the index and the
other slot is the index plus one or minus one. Nothing is clamped or checked
against `pageCount`. -/
theorem getSpreadIndices_adjacent (this : IslandoraBookReader) (first : Page) (index : Int)
    (progression : String)
    (hfirst : this.settings.pages 0 = some first)
    (hprog : this.settings.pageProgression = some progression) :
    ∃ left right, getSpreadIndices this index = .ok ((some left, some right), this) ∧
      ((left = index ∧ right ≠ index ∧ (right = index + 1 ∨ right = index - 1)) ∨
       (right = index ∧ left ≠ index ∧ (left = index + 1 ∨ left = index - 1))) := by
  obtain ⟨side, hside⟩ := getPageSide_returns this first index progression hfirst hprog
  rw [getSpreadIndices_of_side this this index side hside]
  by_cases hdir : this.pageProgression = some "rl"
  · by_cases hR : side = some "R"
    · refine ⟨index + 1, index, by simp [hdir, hR], Or.inr ⟨rfl, by omega, Or.inl rfl⟩⟩
    · refine ⟨index, index - 1, by simp [hdir, hR], Or.inl ⟨rfl, by omega, Or.inr rfl⟩⟩
  · by_cases hL : side = some "L"
    · refine ⟨index, index + 1, by simp [hdir, hL], Or.inl ⟨rfl, by omega, Or.inl rfl⟩⟩
    · refine ⟨index - 1, index, by simp [hdir, hL], Or.inr ⟨rfl, by omega, Or.inr rfl⟩⟩

/-- Witness of C5: index 0 of the three-page left-to-right book, whose spread
has a slot outside the page range. -/
theorem getSpreadIndices_adjacent_witness :
    ∃ left right, getSpreadIndices ltrBook 0 = .ok ((some left, some right), ltrBook) ∧
      ((left = 0 ∧ right ≠ 0 ∧ (right = 0 + 1 ∨ right = 0 - 1)) ∨
       (right = 0 ∧ left ≠ 0 ∧ (left = 0 + 1 ∨ left = 0 - 1))) :=
  getSpreadIndices_adjacent ltrBook (examplePage "book:0" 1500 1000) 0 "lr" rfl rfl

/-- C6: `getPageSide` and `getSpreadIndices` agree for every integer index and
every reader: when `getPageSide` returns `'L'` the left slot of the spread is
the index, and when it returns `'R'` the right slot is the index. -/
theorem getSpreadIndices_agrees_with_side (this this1 : IslandoraBookReader) (index : Int)
    (side : Option String) (hside : getPageSide this index = .ok (side, this1)) :
    (side = some "L" →
      ∃ right, getSpreadIndices this index = .ok ((some index, right), this1)) ∧
    (side = some "R" →
      ∃ left, getSpreadIndices this index = .ok ((left, some index), this1)) := by
  rw [getSpreadIndices_of_side this this1 index side hside]
  constructor
  · intro hL
    subst hL
    by_cases hdir : this.pageProgression = some "rl"
    · exact ⟨some (index - 1), by simp [hdir]⟩
    · exact ⟨some (index + 1), by simp [hdir]⟩
  · intro hR
    subst hR
    by_cases hdir : this.pageProgression = some "rl"
    · exact ⟨some (index + 1), by simp [hdir]⟩
    · exact ⟨some (index - 1), by simp [hdir]⟩

/-- Witness of C6: index 3 of the right-to-left spine book, which is on the
LEFT. -/
theorem getSpreadIndices_agrees_with_side_witness :
    getPageSide rtlSpineBook 3 = .ok (some "L", rtlSpineBook) ∧
    ∃ right, getSpreadIndices rtlSpineBook 3 = .ok ((some 3, right), rtlSpineBook) :=
  ⟨rfl, (getSpreadIndices_agrees_with_side rtlSpineBook rtlSpineBook 3 (some "L") rfl).1 rfl⟩

/-- C7: the worked examples on a normal cover. Left to right (`'lr'`):
`getPageSide(0)` is `'R'`, `getPageSide(1)` is `'L'`, `getSpreadIndices(0)` is
(left -1, right 0) and `getSpreadIndices(1)` is (left 1, right 2). Right to
left (`'rl'`): `getPageSide(0)` is `'L'` and `getSpreadIndices(0)` is
(left 0, right -1). -/
theorem worked_examples (this : IslandoraBookReader) (first : Page)
    (hfirst : this.settings.pages 0 = some first)
    (hnormal : ratioExceeds (parseInt first.height) (parseInt first.width) = false) :
    (this.pageProgression = some "lr" →
      getPageSide this 0 = .ok (some "R", this) ∧
      getPageSide this 1 = .ok (some "L", this) ∧
      getSpreadIndices this 0 = .ok ((some (-1), some 0), this) ∧
      getSpreadIndices this 1 = .ok ((some 1, some 2), this)) ∧
    (this.pageProgression = some "rl" →
      getPageSide this 0 = .ok (some "L", this) ∧
      getSpreadIndices this 0 = .ok ((some 0, some (-1)), this)) := by
  constructor
  · intro hdir
    have hne : this.pageProgression ≠ some "rl" := by rw [hdir]; decide
    have h0 : getPageSide this 0 = .ok (some "R", this) := by
      rw [getPageSide_normal_ltr this first 0 hfirst hnormal hne]; rfl
    have h1 : getPageSide this 1 = .ok (some "L", this) := by
      rw [getPageSide_normal_ltr this first 1 hfirst hnormal hne]; rfl
    refine ⟨h0, h1, ?_, ?_⟩
    · rw [getSpreadIndices_of_side this this 0 _ h0]
      simp [hne]
    · rw [getSpreadIndices_of_side this this 1 _ h1]
      simp [hne]
  · intro hdir
    have h0 : getPageSide this 0 = .ok (some "L", this) := by
      rw [getPageSide_normal_rtl this first 0 hfirst hnormal hdir]; rfl
    refine ⟨h0, ?_⟩
    rw [getSpreadIndices_of_side this this 0 _ h0]
    simp [hdir]

/-- Witness of C7: the left-to-right book with a 1500 by 1000 cover. -/
theorem worked_examples_witness :
    getPageSide ltrBook 0 = .ok (some "R", ltrBook) ∧
    getPageSide ltrBook 1 = .ok (some "L", ltrBook) ∧
    getSpreadIndices ltrBook 0 = .ok ((some (-1), some 0), ltrBook) ∧
    getSpreadIndices ltrBook 1 = .ok ((some 1, some 2), ltrBook) :=
  (worked_examples ltrBook (examplePage "book:0" 1500 1000) rfl rfl).1 rfl

/-- C8: `getPageSide` depends on the index through its parity only: two
integer indices of the same parity, negative and out-of-range ones included,
give the same result on the same reader. A call of `getPageSide` or of
`getSpreadIndices` that returns leaves every field of the reader unchanged, so
a repeated call returns the same result. -/
theorem getPageSide_parity (this : IslandoraBookReader) (i j : Int)
    (hparity : i % 2 = j % 2) :
    getPageSide this i = getPageSide this j ∧
    (∀ value this1, getPageSide this i = .ok (value, this1) →
      this1 = this ∧ getPageSide this1 i = .ok (value, this1)) ∧
    (∀ spread this1, getSpreadIndices this i = .ok (spread, this1) →
      this1 = this ∧ getSpreadIndices this1 i = .ok (spread, this1)) := by
  refine ⟨?_, ?_, ?_⟩
  · simp only [getPageSide, andOne_eq_emod, hparity]
  · intro value this1 h
    have hthis := getPageSide_reader this this1 i value h
    subst hthis
    exact ⟨rfl, h⟩
  · intro spread this1 h
    have hthis := getSpreadIndices_reader this this1 i spread h
    subst hthis
    exact ⟨rfl, h⟩

/-- Witness of C8: the indices -3 and 5 on the left-to-right spine book. -/
theorem getPageSide_parity_witness :
    getPageSide ltrSpineBook (-3) = getPageSide ltrSpineBook 5 ∧
    (∀ value this1, getPageSide ltrSpineBook (-3) = .ok (value, this1) →
      this1 = ltrSpineBook ∧ getPageSide this1 (-3) = .ok (value, this1)) ∧
    (∀ spread this1, getSpreadIndices ltrSpineBook (-3) = .ok (spread, this1) →
      this1 = ltrSpineBook ∧ getSpreadIndices this1 (-3) = .ok (spread, this1)) :=
  getPageSide_parity ltrSpineBook (-3) 5 (by decide)

/-- C9, the code at the failing inputs: in the three-page left-to-right book,
index 0 has no facing page on the left and index 7 is not a page, yet
`getSpreadIndices` returns the integers (-1, 0) and (7, 8), not `null`. -/
theorem getSpreadIndices_not_null :
    ltrBook.numLeafs = 3 ∧
    getSpreadIndices ltrBook 0 = .ok ((some (-1), some 0), ltrBook) ∧
    getSpreadIndices ltrBook 7 = .ok ((some 7, some 8), ltrBook) :=
  ⟨rfl, rfl, rfl⟩

/-- C10: when `settings.pages` has entries exactly at the indices
`0 .. pageCount - 1`, both slots of `getSpreadIndices(index)` are integers and
every slot value `m` is looked up without failure: outside `[0, pageCount)`
both `getPage(m)` and `getPID(m)` return `undefined`, and inside it
`getPID(m)` returns `pages[m].pid`. -/
theorem spread_member_lookup (this this1 : IslandoraBookReader) (index : Int)
    (left right : Option Int)
    (hpages : ∀ k, (this.settings.pages k).isSome ↔ (0 ≤ k ∧ k < this.settings.pageCount))
    (hspread : getSpreadIndices this index = .ok ((left, right), this1)) :
    ∃ l r, left = some l ∧ right = some r ∧ ∀ m, (m = l ∨ m = r) →
      (¬ (0 ≤ m ∧ m < this.settings.pageCount) →
        getPage this1 m = .ok (none, this1) ∧ getPID this1 m = .ok (none, this1)) ∧
      ((0 ≤ m ∧ m < this.settings.pageCount) →
        ∃ page, this.settings.pages m = some page ∧
          getPage this1 m = .ok (some page, this1) ∧
          getPID this1 m = .ok (page.pid, this1)) := by
  have hthis := getSpreadIndices_reader this this1 index (left, right) hspread
  subst hthis
  have hslots : ∃ l r, left = some l ∧ right = some r := by
    cases hside : getPageSide this1 index with
    | error e =>
      unfold getSpreadIndices at hspread
      rw [hside] at hspread
      split at hspread <;> cases hspread
    | ok res =>
      obtain ⟨side, this2⟩ := res
      rw [getSpreadIndices_of_side this1 this2 index side hside] at hspread
      simp only [Except.ok.injEq, Prod.mk.injEq] at hspread
      obtain ⟨hs, -⟩ := hspread
      split at hs
      · split at hs <;> simp only [Prod.mk.injEq] at hs <;> exact ⟨_, _, hs.1.symm, hs.2.symm⟩
      · split at hs <;> simp only [Prod.mk.injEq] at hs <;> exact ⟨_, _, hs.1.symm, hs.2.symm⟩
  obtain ⟨l, r, hl, hr⟩ := hslots
  refine ⟨l, r, hl, hr, fun m _ => ⟨?_, ?_⟩⟩
  · intro hout
    have hnone : this1.settings.pages m = none := by
      cases hp : this1.settings.pages m with
      | none => rfl
      | some page =>
        have := (hpages m).1 (by rw [hp]; rfl)
        exact absurd this hout
    simp [getPID, getPage, hnone]
  · intro hin
    have hsome := (hpages m).2 hin
    cases hp : this1.settings.pages m with
    | none => rw [hp] at hsome; cases hsome
    | some page => exact ⟨page, rfl, by simp [getPage, hp], by simp [getPID, getPage, hp]⟩

/-- Witness of C10: the spread (-1, 0) of index 0 in the three-page
left-to-right book. -/
theorem spread_member_lookup_witness :
    ∃ l r, some (-1 : Int) = some l ∧ some (0 : Int) = some r ∧ ∀ m, (m = l ∨ m = r) →
      (¬ (0 ≤ m ∧ m < ltrBook.settings.pageCount) →
        getPage ltrBook m = .ok (none, ltrBook) ∧ getPID ltrBook m = .ok (none, ltrBook)) ∧
      ((0 ≤ m ∧ m < ltrBook.settings.pageCount) →
        ∃ page, ltrBook.settings.pages m = some page ∧
          getPage ltrBook m = .ok (some page, ltrBook) ∧
          getPID ltrBook m = .ok (page.pid, ltrBook)) :=
  spread_member_lookup ltrBook ltrBook 0 (some (-1)) (some 0)
    (exampleSettings_pages (some "lr") 1500 1000) (by rfl)

/-- C13, the code at the failing inputs: on a narrow first page (3000 by 1000)
the mistyped progression `'ltr'` gives `'T'` at index 1 where `'lr'` gives
`'R'`, and an unset progression makes `getPageSide` and `getSpreadIndices`
throw where `'lr'` returns. The narrow branch reads the characters of
`settings.pageProgression` instead of testing it against `'rl'` as the
normal-cover branch and `getSpreadIndices` do. -/
theorem mistyped_progression_differs :
    getPageSide mistypedSpineBook 1 = .ok (some "T", mistypedSpineBook) ∧
    getPageSide ltrSpineBook 1 = .ok (some "R", ltrSpineBook) ∧
    getPageSide unsetSpineBook 0 = .error .typeError ∧
    getSpreadIndices unsetSpineBook 0 = .error .typeError ∧
    getSpreadIndices ltrSpineBook 0 = .ok ((some 0, some 1), ltrSpineBook) :=
  ⟨rfl, rfl, rfl, rfl, rfl⟩

/-- The normal-cover branch treats every page progression other than `'rl'`,
unset or mistyped ones included, as left to right: for every integer index
`getPageSide` and `getSpreadIndices` return exactly what they return for
`'lr'`. -/
theorem non_rl_is_ltr_on_normal_cover (this : IslandoraBookReader) (first : Page)
    (index : Int) (progression : Option String)
    (hfirst : this.settings.pages 0 = some first)
    (hnormal : ratioExceeds (parseInt first.height) (parseInt first.width) = false)
    (hother : progression ≠ some "rl") :
    returned (getPageSide (withProgression this progression) index)
      = returned (getPageSide (withProgression this (some "lr")) index) ∧
    returned (getSpreadIndices (withProgression this progression) index)
      = returned (getSpreadIndices (withProgression this (some "lr")) index) := by
  have hlr : (some "lr" : Option String) ≠ some "rl" := by decide
  have h1 := getPageSide_normal_ltr (withProgression this progression) first index
    hfirst hnormal hother
  have h2 := getPageSide_normal_ltr (withProgression this (some "lr")) first index
    hfirst hnormal hlr
  have hp1 : (withProgression this progression).pageProgression ≠ some "rl" := hother
  have hp2 : (withProgression this (some "lr")).pageProgression ≠ some "rl" := hlr
  constructor
  · rw [h1, h2]; rfl
  · rw [getSpreadIndices_of_side _ _ index _ h1, getSpreadIndices_of_side _ _ index _ h2]
    simp only [hp1, hp2, if_false]
    rfl

/-- An instance of the normal-cover fact: the three-page book with a 1500 by
1000 cover and the progression `'ltr'`, at index 1. -/
theorem non_rl_is_ltr_on_normal_cover_witness :
    returned (getPageSide (withProgression ltrBook (some "ltr")) 1)
      = returned (getPageSide (withProgression ltrBook (some "lr")) 1) ∧
    returned (getSpreadIndices (withProgression ltrBook (some "ltr")) 1)
      = returned (getSpreadIndices (withProgression ltrBook (some "lr")) 1) :=
  non_rl_is_ltr_on_normal_cover ltrBook (examplePage "book:0" 1500 1000) 1 (some "ltr")
    rfl rfl (by decide)

/-- C14, counterexample: the page numbers of `numberedBook` are the empty
string at index 1 and the number 0 at index 2; both are configured, and
`getPageNum` returns `'n1'` and `'n2'` instead of them. -/
theorem getPageNum_falsy_number :
    numberedBook.settings.pageNumbers 1 = some (.str "") ∧
    getPageNum numberedBook 1 = .ok (.str "n1", numberedBook) ∧
    numberedBook.settings.pageNumbers 2 = some (.num 0) ∧
    getPageNum numberedBook 2 = .ok (.str "n2", numberedBook) :=
  ⟨rfl, rfl, rfl, rfl⟩

/-- C14, amended: `getPageNum(index)` returns the page number configured for
the index in `settings.pageNumbers` whenever that value is true as a condition
(a non-empty string or a non-zero number), and otherwise, with no entry, the
empty string or the number 0, it returns the string `'n'` followed by the
index; `getPageName(index)` always equals `getPageNum(index)`. -/
theorem getPageNum_configured (this : IslandoraBookReader) (index : Int)
    (hnums : this.pageNums = this.settings.pageNumbers) :
    (∀ value, this.settings.pageNumbers index = some value → value.truthy = true →
      getPageNum this index = .ok (value, this)) ∧
    (∀ value, this.settings.pageNumbers index = some value → value.truthy = false →
      getPageNum this index = .ok (.str ("n" ++ toString index), this)) ∧
    (this.settings.pageNumbers index = none →
      getPageNum this index = .ok (.str ("n" ++ toString index), this)) ∧
    getPageName this index = getPageNum this index := by
  refine ⟨fun value h ht => ?_, fun value h ht => ?_, fun h => ?_, rfl⟩
  · unfold getPageNum
    simp only [hnums, h, ht, if_true]
  · unfold getPageNum
    simp only [hnums, h, ht, Bool.false_eq_true, if_false]
  · unfold getPageNum
    simp only [hnums, h]

/-- Witness of the amended C14: `numberedBook` at index 0, whose page number
is `'i'`. -/
theorem getPageNum_configured_witness :
    getPageNum numberedBook 0 = .ok (.str "i", numberedBook) ∧
    getPageName numberedBook 0 = getPageNum numberedBook 0 :=
  ⟨(getPageNum_configured numberedBook 0 rfl).1 (.str "i") rfl rfl,
   (getPageNum_configured numberedBook 0 rfl).2.2.2⟩

/-- C16, the code at the failing input: with the base URI
`http://localhost/adore-djatoka/`, which ends in a slash, `getDjatokaUri`
appends another slash, and the result has two slashes before `resolver?`. The
test reads `charAt(length)`, which is the empty string for every base URI. -/
theorem getDjatokaUri_double_slash (param : List (String × String) → String)
    (resource_uri : String) :
    slashBook.settings.djatokaUri = "http://localhost/adore-djatoka/" ∧
    charAtPosition slashBook.settings.djatokaUri slashBook.settings.djatokaUri.data.length
      = "" ∧
    getDjatokaUri param slashBook resource_uri
      = .ok ("http://localhost/adore-djatoka//resolver?" ++ param
          [("rft_id", resource_uri), ("url_ver", "Z39.88-2004"),
           ("svc_id", "info:lanl-repo/svc/getRegion"),
           ("svc_val_fmt", "info:ofi/fmt:kev:mtx:jpeg2000"),
           ("svc.format", "image/jpg"), ("svc.level", "4"), ("svc.rotate", "0")],
          slashBook) := by
  refine ⟨rfl, rfl, ?_⟩
  rw [getDjatokaUri_value]
  rfl

/-- C11: the dimension cache is filled lazily and never invalidated. When the
cache has no entry for `i`, `getPageWidth(i)` and `getPageHeight(i)` call
`getPageDimensions(i)` once, store its result under key `i` and leave every
other entry as it was; when the cache has an entry for `i` they return its
width and height without any lookup and without changing the reader. After
`getPageWidth(i)` the cache holds the record whose width was returned, and
`getPageHeight(i)` returns the height of that record. Over any sequence of
calls no index is looked up twice, only indices without an entry at the start
are looked up, and every entry present at the start is unchanged at the
end. -/
theorem dimension_cache (ajax : String → Option DimensionsData)
    (this : IslandoraBookReader) (index : Int) :
    (this.dimensions index = none →
      ∃ record events,
        getPageDimensions ajax this index = .ok (record, this, events) ∧
        lookups events = [index] ∧
        getPageWidth ajax this index
          = .ok (record.width, setDimensions this index record, events) ∧
        getPageHeight ajax this index
          = .ok (record.height, setDimensions this index record, events) ∧
        (setDimensions this index record).dimensions index = some record ∧
        (∀ k, k ≠ index →
          (setDimensions this index record).dimensions k = this.dimensions k)) ∧
    (∀ record, this.dimensions index = some record →
      getPageWidth ajax this index = .ok (record.width, this, []) ∧
      getPageHeight ajax this index = .ok (record.height, this, [])) ∧
    (∃ record this1 events,
      getPageWidth ajax this index = .ok (record.width, this1, events) ∧
      this1.dimensions index = some record ∧
      getPageHeight ajax this1 index = .ok (record.height, this1, [])) ∧
    (∀ calls : List Call, ∃ values this1 events,
      runCalls ajax this calls = .ok (values, this1, events) ∧
      (lookups events).Nodup ∧
      (∀ i, i ∈ lookups events → this.dimensions i = none) ∧
      (∀ k record, this.dimensions k = some record → this1.dimensions k = some record)) := by
  have hstored : ∀ record : Dimensions,
      (setDimensions this index record).dimensions index = some record := by
    intro record
    simp only [setDimensions, if_true]
  refine ⟨fun hmiss => ?_, fun record hhit => ?_, ?_, fun calls => ?_⟩
  · obtain ⟨record, events, hvalue, hlook⟩ := getPageDimensions_returns ajax this index
    refine ⟨record, events, hvalue, hlook,
      getPageWidth_miss ajax this index record events hmiss hvalue,
      getPageHeight_miss ajax this index record events hmiss hvalue, hstored record, ?_⟩
    intro k hk
    simp only [setDimensions, hk, if_false]
  · exact ⟨getPageWidth_hit ajax this index record hhit,
      getPageHeight_hit ajax this index record hhit⟩
  · cases hcache : this.dimensions index with
    | some record =>
      exact ⟨record, this, [], getPageWidth_hit ajax this index record hcache, hcache,
        getPageHeight_hit ajax this index record hcache⟩
    | none =>
      obtain ⟨record, events, hvalue, -⟩ := getPageDimensions_returns ajax this index
      exact ⟨record, setDimensions this index record, events,
        getPageWidth_miss ajax this index record events hcache hvalue, hstored record,
        getPageHeight_hit ajax _ index record (hstored record)⟩
  · exact runCalls_lookups ajax calls this

/-- Witness of C11: page 1 of `lazyBook`, whose dimensions the server gives as
800 by 1200, asked for its width, its height and its width again. -/
theorem dimension_cache_witness :
    ∃ values this1 events,
      runCalls exampleAjax lazyBook [Call.width 1, Call.height 1, Call.width 1]
        = .ok (values, this1, events) ∧
      (lookups events).Nodup ∧
      (∀ i, i ∈ lookups events → lazyBook.dimensions i = none) ∧
      (∀ k record, lazyBook.dimensions k = some record → this1.dimensions k = some record) :=
  (dimension_cache exampleAjax lazyBook 1).2.2.2 [Call.width 1, Call.height 1, Call.width 1]

/-- C12: `getPageDimensions(index)` returns width 0 and height 0 whenever it
fails: when there is no page at the index, when the page lacks a width or a
height and has no pid, and when the dimensions request does not succeed. When
the page has both a width and a height it returns their values as `parseInt`
reads them and sends no request. -/
theorem getPageDimensions_results (ajax : String → Option DimensionsData)
    (this : IslandoraBookReader) (index : Int) :
    (this.settings.pages index = none →
      getPageDimensions ajax this index
        = .ok (⟨JSNum.zero, JSNum.zero⟩, this, [Event.lookup index])) ∧
    (∀ page, this.settings.pages index = some page →
      (page.width = none ∨ page.height = none) → page.pid = none →
      getPageDimensions ajax this index
        = .ok (⟨JSNum.zero, JSNum.zero⟩, this, [Event.lookup index])) ∧
    (∀ page pid, this.settings.pages index = some page →
      (page.width = none ∨ page.height = none) → page.pid = some pid →
      ajax (stringReplace this.settings.dimensionsUri "PID" pid) = none →
      getPageDimensions ajax this index
        = .ok (⟨JSNum.zero, JSNum.zero⟩, this,
            [Event.lookup index,
             Event.request (stringReplace this.settings.dimensionsUri "PID" pid)])) ∧
    (∀ page width height, this.settings.pages index = some page →
      page.width = some width → page.height = some height →
      ∃ events, getPageDimensions ajax this index = .ok (⟨width, height⟩, this, events) ∧
        requests events = []) := by
  refine ⟨fun hpage => ?_, fun page hpage hdims hpid => ?_,
    fun page pid hpage hdims hpid hajax => ?_, fun page width height hpage hw hh => ?_⟩
  · unfold getPageDimensions getPage
    simp only [hpage]
  · unfold getPageDimensions getPage
    simp only [hpage, hdims, if_true, hpid]
  · unfold getPageDimensions getPage
    simp only [hpage, hdims, if_true, hpid, getDimensionsUri, hajax]
  · refine ⟨[Event.lookup index], ?_, rfl⟩
    unfold getPageDimensions getPage
    simp [hpage, hw, hh, parseInt]

/-- Witness of C12: in `lazyBook` with a server that answers no request, index
5 has no page, page 2 has neither dimensions nor a pid, the request for page 1
fails, and page 0 carries 1000 by 1500. -/
theorem getPageDimensions_results_witness :
    getPageDimensions failingAjax lazyBook 5
      = .ok (⟨JSNum.zero, JSNum.zero⟩, lazyBook, [Event.lookup 5]) ∧
    getPageDimensions failingAjax lazyBook 2
      = .ok (⟨JSNum.zero, JSNum.zero⟩, lazyBook, [Event.lookup 2]) ∧
    getPageDimensions failingAjax lazyBook 1
      = .ok (⟨JSNum.zero, JSNum.zero⟩, lazyBook,
          [Event.lookup 1,
           Event.request (stringReplace lazyBook.settings.dimensionsUri "PID" "book:1")]) ∧
    ∃ events, getPageDimensions failingAjax lazyBook 0
        = .ok (⟨JSNum.ofNat 1000, JSNum.ofNat 1500⟩, lazyBook, events) ∧
      requests events = [] :=
  ⟨(getPageDimensions_results failingAjax lazyBook 5).1 rfl,
   (getPageDimensions_results failingAjax lazyBook 2).2.1
      { pid := none, uri := none, width := none, height := none } rfl (Or.inl rfl) rfl,
   (getPageDimensions_results failingAjax lazyBook 1).2.2.1
      { pid := some "book:1", uri := none, width := none, height := none } "book:1"
      rfl (Or.inl rfl) rfl rfl,
   (getPageDimensions_results failingAjax lazyBook 0).2.2.2
      (examplePage "book:0" 1500 1000) (JSNum.ofNat 1000) (JSNum.ofNat 1500) rfl rfl rfl⟩

/-- C15: `getDimensionsUri(pid)` and `getTextURI(pid)` return the configured
template with the placeholder `PID` replaced by the pid. For a template
`before ++ 'PID' ++ after` that contains `PID` once and a pid without a dollar
sign the result is `before ++ pid ++ after`; when `PID` occurs more than once
only the first occurrence is replaced; a template without `PID` is returned
unchanged. -/
theorem uri_template_replaced (this : IslandoraBookReader) (pid before after : String) :
    (this.settings.dimensionsUri = before ++ "PID" ++ after →
      countOccurrences "PID".data (before ++ "PID" ++ after).data = 1 → '$' ∉ pid.data →
      getDimensionsUri this pid = .ok (before ++ pid ++ after, this)) ∧
    (this.settings.textUri = before ++ "PID" ++ after →
      countOccurrences "PID".data (before ++ "PID" ++ after).data = 1 → '$' ∉ pid.data →
      getTextURI this pid = .ok (before ++ pid ++ after, this)) ∧
    (this.settings.dimensionsUri = before ++ "PID" ++ after →
      (∀ k, k < before.data.length →
        startsWith "PID".data ((before ++ "PID" ++ after).data.drop k) = false) →
      '$' ∉ pid.data →
      getDimensionsUri this pid = .ok (before ++ pid ++ after, this)) ∧
    (this.settings.textUri = before ++ "PID" ++ after →
      (∀ k, k < before.data.length →
        startsWith "PID".data ((before ++ "PID" ++ after).data.drop k) = false) →
      '$' ∉ pid.data →
      getTextURI this pid = .ok (before ++ pid ++ after, this)) ∧
    (countOccurrences "PID".data this.settings.dimensionsUri.data = 0 →
      getDimensionsUri this pid = .ok (this.settings.dimensionsUri, this)) ∧
    (countOccurrences "PID".data this.settings.textUri.data = 0 →
      getTextURI this pid = .ok (this.settings.textUri, this)) := by
  have hdata : (before ++ "PID" ++ after).data
      = before.data ++ ("PID".data ++ after.data) := by
    simp only [String.data_append, List.append_assoc]
  have hsingle : countOccurrences "PID".data (before ++ "PID" ++ after).data = 1 →
      ∀ k, k < before.data.length →
        startsWith "PID".data ((before ++ "PID" ++ after).data.drop k) = false := by
    intro hone
    rw [hdata] at hone ⊢
    exact first_of_single "PID".data before.data after.data hone
  refine ⟨fun huri hone hplain => ?_, fun huri hone hplain => ?_,
    fun huri hfirst hplain => ?_, fun huri hfirst hplain => ?_, fun hnone => ?_,
    fun hnone => ?_⟩
  · unfold getDimensionsUri
    simp only [huri, stringReplace_first before after "PID" pid hplain (hsingle hone)]
  · unfold getTextURI
    simp only [huri, stringReplace_first before after "PID" pid hplain (hsingle hone)]
  · unfold getDimensionsUri
    simp only [huri, stringReplace_first before after "PID" pid hplain hfirst]
  · unfold getTextURI
    simp only [huri, stringReplace_first before after "PID" pid hplain hfirst]
  · unfold getDimensionsUri
    simp only [stringReplace_absent _ "PID" pid hnone]
  · unfold getTextURI
    simp only [stringReplace_absent _ "PID" pid hnone]

/-- Witness of C15: the template `dimensions/PID` of `ltrBook` with the pid
`book:1`; the template `text/PID/PID` of `doubleTemplateBook`, of which only
the first placeholder is replaced; and its template `dimensions`, which has no
placeholder. -/
theorem uri_template_replaced_witness :
    getDimensionsUri ltrBook "book:1" = .ok ("dimensions/" ++ "book:1" ++ "", ltrBook) ∧
    getTextURI doubleTemplateBook "book:1"
      = .ok ("text/" ++ "book:1" ++ "/PID", doubleTemplateBook) ∧
    getDimensionsUri doubleTemplateBook "book:1" = .ok ("dimensions", doubleTemplateBook) :=
  ⟨(uri_template_replaced ltrBook "book:1" "dimensions/" "").1 rfl (by decide) (by decide),
   (uri_template_replaced doubleTemplateBook "book:1" "text/" "/PID").2.2.2.1 rfl
      (by decide) (by decide),
   (uri_template_replaced doubleTemplateBook "book:1" "" "").2.2.2.2.1 (by decide)⟩

end Islandora
